import Mathlib

/-!
Verification development for the email-verifier repository
(`src/email_verifier.py`, `src/email_sender.py`).

Network effects (DNS resolution, SMTP sessions, the third-party
`validate_email` routine) are modelled as oracle functions supplied in an
environment; each Python function is translated control-flow-faithfully
over those oracles.  A Python function that may let an exception escape is
modelled with `Except Unit`.  Probe functions additionally return the list
of mail exchangers an SMTP session was attempted to, and the verification
pipeline returns how many network-performing stages (MX lookup, SMTP
probe) it executed, so that trace properties such as "no network call" or
"at most one exchanger" can be stated.
-/

/-- Outcome of the third-party `validate_email` call on a string: it
returns normally, raises `EmailNotValidError`, or raises an exception of
some other type (in `email_validator` this is possible, e.g. a DNS
timeout escaping the deliverability check, or a non-string argument). -/
inductive ValidateOutcome where
  | ok : ValidateOutcome
  | emailNotValid : ValidateOutcome
  | otherError : ValidateOutcome
deriving DecidableEq, Repr

/-- Outcome of one SMTP session attempt against a single mail exchanger
(the body of the inner `try` in the probe functions): the `RCPT TO`
command returned reply code `c`; or the attempt raised
`smtplib.SMTPRecipientsRefused`; or it raised
`smtplib.SMTPResponseException` carrying `smtp_code c`; or it raised an
exception of any other type (connection failure, timeout, reset, ...). -/
inductive SMTPOutcome where
  | reply : Nat → SMTPOutcome
  | recipientsRefused : SMTPOutcome
  | responseException : Nat → SMTPOutcome
  | otherException : SMTPOutcome
deriving DecidableEq, Repr

/-- DNS MX record: exchanger host name and preference value. -/
structure MXRecord where
  exchange : String
  preference : Nat
deriving DecidableEq, Repr

/-- Environment of network oracles for `EmailVerifier`.  `resolveFast` and
`resolveStd` model the two independent `dns.resolver` calls inside the
probe functions (`none` is an exception raised by `resolve`); `mxCheck`
is the boolean outcome of `check_mx_record` (which catches every
exception itself); `smtpFast` and `smtpStd` give the outcome of an SMTP
session attempt keyed by exchanger host. -/
structure NetEnv where
  validate : String → ValidateOutcome
  mxCheck : String → Bool
  resolveFast : String → Option (List MXRecord)
  resolveStd : String → Option (List MXRecord)
  smtpFast : String → SMTPOutcome
  smtpStd : String → SMTPOutcome

/-- Splitting a character list at every occurrence of `c`, as Python
`str.split` does (adjacent separators yield empty pieces). -/
def splitOnCharAux (c : Char) : List Char → List Char → List (List Char)
  | [], acc => [acc.reverse]
  | x :: xs, acc =>
    if x = c then acc.reverse :: splitOnCharAux c xs []
    else splitOnCharAux c xs (x :: acc)

/-- Model of the Python expression `email.split('@')[1]`: `none` when the
split has no second element, in which case Python raises `IndexError`. -/
def splitAtDomain (email : String) : Option String :=
  match splitOnCharAux '@' email.toList [] with
  | _ :: d :: _ => some (String.mk d)
  | _ => none

/-- `EmailVerifier.check_email_format` (lines 26-32): calls
`validate_email(email)` and returns `True` on a normal return; the only
handler is `except EmailNotValidError: return False`, so an exception of
any other type escapes the function (`Except.error`). -/
def check_email_format (validate : String → ValidateOutcome)
    (email : String) : Except Unit Bool :=
  match validate email with
  | ValidateOutcome.ok => Except.ok true
  | ValidateOutcome.emailNotValid => Except.ok false
  | ValidateOutcome.otherError => Except.error ()

/-- Stable insertion into a list sorted ascending by preference: the new
record goes after already-present records of strictly smaller or equal
preference, matching the stability of Python `sorted`. -/
def insertByPref (r : MXRecord) : List MXRecord → List MXRecord
  | [] => [r]
  | x :: xs =>
    if x.preference < r.preference then x :: insertByPref r xs
    else r :: x :: xs

/-- Model of `sorted(mx_records, key=lambda x: x.preference)`: a stable
sort ascending by the `preference` key. -/
def sortByPref : List MXRecord → List MXRecord
  | [] => []
  | x :: xs => insertByPref x (sortByPref xs)

/-- The reply-code classification shared verbatim by both probe
functions: `if code == 250 ... elif code == 550 ... else ...`. -/
def classifyRcptCode (code : Nat) : String :=
  if code = 250 then "valid" else if code = 550 then "invalid" else "risky"

/-- Classification of one attempt in `check_smtp_connection_fast`
(lines 69-95): every outcome of the inner `try` yields a status, the
generic handler being `except Exception: return "risky"`. -/
def classifyFastAttempt : SMTPOutcome → String
  | SMTPOutcome.reply c => classifyRcptCode c
  | SMTPOutcome.recipientsRefused => "invalid"
  | SMTPOutcome.responseException c => if c = 550 then "invalid" else "risky"
  | SMTPOutcome.otherException => "risky"

/-- Classification of one attempt in `check_smtp_connection_standard`
(lines 115-140): `none` is the `except Exception: continue` branch,
which moves on to the next exchanger instead of returning. -/
def classifyStdAttempt : SMTPOutcome → Option String
  | SMTPOutcome.reply c => some (classifyRcptCode c)
  | SMTPOutcome.recipientsRefused => some "invalid"
  | SMTPOutcome.responseException c => some (if c = 550 then "invalid" else "risky")
  | SMTPOutcome.otherException => none

/-- `EmailVerifier.check_smtp_connection_fast` (lines 48-99).  First
component: the returned status string.  Second component: the exchanger
hosts an SMTP session was attempted to (at most the single
lowest-preference one).  The inner `try` around `resolve` returns
"invalid" on any resolution exception; the outer
`except Exception: return "risky"` is reached when `email.split('@')[1]`
fails, or when indexing an empty sorted record list would fail. -/
def check_smtp_connection_fast (E : NetEnv) (email : String) :
    String × List String :=
  match splitAtDomain email with
  | none => ("risky", [])
  | some domain =>
    match E.resolveFast domain with
    | none => ("invalid", [])
    | some records =>
      if records = [] then ("invalid", [])
      else
        match sortByPref records with
        | [] => ("risky", [])
        | m :: _ => (classifyFastAttempt (E.smtpFast m.exchange), [m.exchange])

/-- The `for mx_record in mx_records[:2]` loop of
`check_smtp_connection_standard`: attempts exchangers in order, the
generic-exception branch continues with the next one, and an exhausted
loop falls through to `return "risky"`. -/
def standardLoop (E : NetEnv) : List MXRecord → String × List String
  | [] => ("risky", [])
  | m :: rest =>
    match classifyStdAttempt (E.smtpStd m.exchange) with
    | some s => (s, [m.exchange])
    | none =>
      let r := standardLoop E rest
      (r.1, m.exchange :: r.2)

/-- `EmailVerifier.check_smtp_connection_standard` (lines 101-146).  The
`resolve` call here is not wrapped in an inner `try`, so a resolution
exception reaches the outer handler and yields "risky" (unlike fast
mode); an empty record list yields "invalid"; otherwise the loop runs
over the first two preference-sorted exchangers. -/
def check_smtp_connection_standard (E : NetEnv) (email : String) :
    String × List String :=
  match splitAtDomain email with
  | none => ("risky", [])
  | some domain =>
    match E.resolveStd domain with
    | none => ("risky", [])
    | some records =>
      if records = [] then ("invalid", [])
      else standardLoop E ((sortByPref records).take 2)

/-- The result dictionary built by `verify_single_email` and by the
batch error branch: fields `email`, `format`, `mx`, `ping`, `status`. -/
structure VerificationResult where
  email : String
  format : Bool
  mx : Bool
  ping : String
  status : String
deriving DecidableEq, Repr

/-- `EmailVerifier.verify_single_email` (lines 148-182).  First
component: the returned dictionary, or `Except.error` when an uncaught
exception escapes (possible only from a non-`EmailNotValidError`
exception inside `check_email_format`, or from `email.split('@')[1]` on
a format-accepted address without a second split piece).  Second
component: how many of the two network-performing stages (MX lookup,
SMTP probe) were executed. -/
def verify_single_email (E : NetEnv) (fast_mode : Bool) (cancelled : Bool)
    (email : String) : Except Unit VerificationResult × Nat :=
  if cancelled then
    (Except.ok ⟨email, false, false, "cancelled", "cancelled"⟩, 0)
  else
    match check_email_format E.validate email with
    | Except.error _ => (Except.error (), 0)
    | Except.ok fmtOk =>
      if fmtOk = false then
        (Except.ok ⟨email, false, false, "invalid", "invalid"⟩, 0)
      else
        match splitAtDomain email with
        | none => (Except.error (), 0)
        | some domain =>
          if E.mxCheck domain = false then
            (Except.ok ⟨email, true, false, "invalid", "invalid"⟩, 1)
          else
            let ping :=
              if fast_mode then (check_smtp_connection_fast E email).1
              else (check_smtp_connection_standard E email).1
            (Except.ok ⟨email, true, true, ping, ping⟩, 2)

/-- The error entry appended by the `except` branch of the batch
collection loop (lines 214-220). -/
def errorEntry (email : String) : VerificationResult :=
  ⟨email, false, false, "error", "error"⟩

/-- The `for future in as_completed(...)` collection loop of
`verify_emails_batch` (lines 197-220): `order` is the completion order
of the submitted pipelines, `cancelled` the value of the shared flag
during the loop (monotone, here constant), `total` the value of
`self.total_emails` and `progress` the running counter.  Returns the
`results` list and the list of `progress_callback(progress, total)`
invocation arguments.  The `except` branch appends an error entry
without incrementing `progress` and without invoking the callback. -/
def batchLoop (E : NetEnv) (fast_mode : Bool) (cancelled : Bool)
    (total : Nat) :
    List String → Nat → List VerificationResult × List (Nat × Nat)
  | [], _ => ([], [])
  | e :: rest, progress =>
    if cancelled then ([], [])
    else
      match (verify_single_email E fast_mode cancelled e).1 with
      | Except.ok r =>
        let t := batchLoop E fast_mode cancelled total rest (progress + 1)
        (r :: t.1, (progress + 1, total) :: t.2)
      | Except.error _ =>
        let t := batchLoop E fast_mode cancelled total rest progress
        (errorEntry e :: t.1, t.2)

/-- The mutable `EmailVerifier` fields relevant to cancellation and
progress. -/
structure VerifierState where
  cancelled : Bool
  progress : Nat
  total_emails : Nat
deriving DecidableEq, Repr

/-- `EmailVerifier.cancel_verification` (lines 224-226): sets the shared
flag. -/
def cancel_verification (s : VerifierState) : VerifierState :=
  { s with cancelled := true }

/-- `EmailVerifier.verify_emails_batch` (lines 184-222).  The function
resets `self.cancelled` to `False` on entry (line 188), so the incoming
state is discarded; `cancelDuring` models a `cancel_verification` call
arriving from another thread after that reset and before any pipeline
starts (the flag is monotone for the rest of the run).  `order` is the
completion order of the submitted futures.  Every submitted pipeline
executes with the flag value of the run, so the total count of
network-performing stages is summed over all of them even when the
collection loop breaks early.  `ThreadPoolExecutor` raises `ValueError`
when its worker-count argument `min(max_workers, len(emails), 50)` is
zero, and that exception escapes the function: `Except.error`. -/
def verify_emails_batch (E : NetEnv) (s : VerifierState) (fast_mode : Bool)
    (max_workers : Nat) (emails order : List String)
    (cancelDuring : Bool) :
    Except Unit (List VerificationResult × List (Nat × Nat) × Nat) :=
  let s1 : VerifierState :=
    { s with cancelled := false, progress := 0,
             total_emails := emails.length }
  let flag := s1.cancelled || cancelDuring
  if min max_workers (min emails.length 50) = 0 then Except.error ()
  else
    let collected := batchLoop E fast_mode flag s1.total_emails order 0
    let net :=
      (order.map (fun e => (verify_single_email E fast_mode flag e).2)).sum
    Except.ok (collected.1, collected.2, net)

/-- The campaign statistics dictionary of `EmailSender` (times are
abstract ticks). -/
structure CampaignStats where
  total_sent : Nat
  successful : Nat
  failed : Nat
  start_time : Option Nat
  end_time : Option Nat
deriving DecidableEq, Repr

/-- The mutable `EmailSender` fields touched by `send_bulk_emails`. -/
structure SenderState where
  is_sending : Bool
  cancelled : Bool
  campaign_stats : CampaignStats
deriving DecidableEq, Repr

/-- A status/message result dictionary as returned by
`send_single_email` and by the synchronous part of `send_bulk_emails`. -/
structure SendCallResult where
  status : String
  message : String
deriving DecidableEq, Repr

/-- One entry of the `emails` argument of `send_bulk_emails`:
`email_data.get('email', '')` and `email_data.get('name', '')` (a
missing `name` key yields the empty string). -/
structure Target where
  email : String
  name : String
deriving DecidableEq, Repr

/-- `EmailSender.send_bulk_emails` (lines 143-184), synchronous part:
when `is_sending` is already set it returns the error dictionary and
changes nothing, and the worker thread is not started; otherwise it sets
the flags, resets the stats stamping `start_time` with the current time
`now`, starts the background worker (`send_bulk_emails_worker`) and
returns the started dictionary. -/
def send_bulk_emails (s : SenderState) (now : Nat) (emails : List Target) :
    SenderState × SendCallResult :=
  if s.is_sending then
    (s, ⟨"error", "Already sending emails"⟩)
  else
    ({ is_sending := true, cancelled := false,
       campaign_stats := ⟨0, 0, 0, some now, none⟩ },
     ⟨"started", "Started sending " ++ toString emails.length ++ " emails"⟩)

/-- The literal substitution token, i.e. the string `{name}` (braces
written as escapes). -/
def nameToken : String := "\x7bname\x7d"

/-- Personalization of `subject` and `body` in the worker (lines
201-202): `template.replace(token, name) if name else template` — Python
truthiness makes the empty string skip the substitution. -/
def personalize (template : String) (name : String) : String :=
  if name = "" then template else template.replace nameToken name

/-- Personalization of the optional `html_body` (line 203):
`html_body.replace(token, name) if html_body and name else html_body`.
An empty html string is falsy in Python and skips the substitution;
replacing inside the empty string is the identity, so the branch on the
name alone is observably equal. -/
def personalizeHtml (html : Option String) (name : String) :
    Option String :=
  match html with
  | none => none
  | some h => if name = "" then some h else some (h.replace nameToken name)

/-- One entry of the worker's `results` list (lines 219-225), without
the wall-clock timestamp. -/
structure SendEntry where
  email : String
  name : String
  status : String
  message : String
deriving DecidableEq, Repr

/-- The content of one message handed to `send_single_email` by the
worker: recipient, personalized subject, body and optional html body. -/
structure OutMessage where
  to_email : String
  subject : String
  body : String
  html : Option String
deriving DecidableEq, Repr

/-- `EmailSender.send_single_email` (lines 83-141), abstracted over
whether the SMTP transaction of attempt index `i` succeeds (`sendOk i`):
on success it returns the success dictionary, on any exception the error
dictionary, `errText i` standing for `str(e)`. -/
def send_single_email (sendOk : Nat → Bool) (errText : Nat → String)
    (i : Nat) (to_email : String) : SendCallResult :=
  if sendOk i then ⟨"success", "Email sent successfully to " ++ to_email⟩
  else
    ⟨"error",
     "Failed to send email to " ++ to_email ++ ": " ++ errText i⟩

/-- The `for i, email_data in enumerate(emails)` loop of
`EmailSender._send_bulk_emails_worker` (lines 186-244): checks the
cancellation flag at the top of each iteration, personalizes
subject/body/html, sends, increments `total_sent` and exactly one of
`successful`/`failed`, and records a result entry.  Also returns the
list of messages actually handed to `send_single_email` (the delivered
content).  The progress callback and the inter-send delay change no
state modelled here; the `finally` block stamping `end_time` and
clearing `is_sending` happens after the loop. -/
def send_bulk_emails_worker (sendOk : Nat → Bool) (errText : Nat → String)
    (cancelAt : Nat → Bool) (subject body : String) (html : Option String) :
    List Target → Nat → CampaignStats →
    CampaignStats × List SendEntry × List OutMessage
  | [], _, s => (s, [], [])
  | t :: rest, i, s =>
    if cancelAt i then (s, [], [])
    else
      let pSubject := personalize subject t.name
      let pBody := personalize body t.name
      let pHtml := personalizeHtml html t.name
      let r := send_single_email sendOk errText i t.email
      let s1 : CampaignStats :=
        { s with
          total_sent := s.total_sent + 1,
          successful := s.successful + (if r.status = "success" then 1 else 0),
          failed := s.failed + (if r.status = "success" then 0 else 1) }
      let entry : SendEntry := ⟨t.email, t.name, r.status, r.message⟩
      let w := send_bulk_emails_worker sendOk errText cancelAt subject body
        html rest (i + 1) s1
      (w.1, entry :: w.2.1, ⟨t.email, pSubject, pBody, pHtml⟩ :: w.2.2)

/-- A concrete environment where every address validates, every domain
has MX records and every SMTP attempt answers with reply code 250. -/
def exEnvA : NetEnv :=
  { validate := fun _ => ValidateOutcome.ok,
    mxCheck := fun _ => true,
    resolveFast := fun _ => some [⟨"mx1.b.com", 5⟩, ⟨"mx2.b.com", 10⟩],
    resolveStd := fun _ => some [⟨"mx1.b.com", 5⟩, ⟨"mx2.b.com", 10⟩],
    smtpFast := fun _ => SMTPOutcome.reply 250,
    smtpStd := fun _ => SMTPOutcome.reply 250 }

/-- Like `exEnvA`, except that `validate_email` raises an exception that
is not an `EmailNotValidError` on the address string `bad`. -/
def exEnvB : NetEnv :=
  { exEnvA with
    validate := fun e =>
      if e = "bad" then ValidateOutcome.otherError else ValidateOutcome.ok }

/-- Like `exEnvA`, except that `validate_email` raises
`EmailNotValidError` on every address. -/
def exEnvC : NetEnv :=
  { exEnvA with validate := fun _ => ValidateOutcome.emailNotValid }

lemma insertByPref_ne_nil (r : MXRecord) (l : List MXRecord) :
    insertByPref r l ≠ [] := by
  cases l with
  | nil => simp [insertByPref]
  | cons x xs =>
    simp only [insertByPref]
    split <;> simp

lemma sortByPref_eq_nil_iff {l : List MXRecord} :
    sortByPref l = [] ↔ l = [] := by
  cases l with
  | nil => simp [sortByPref]
  | cons x xs => simp [sortByPref, insertByPref_ne_nil]

lemma sortByPref_head_min {l : List MXRecord} {m : MXRecord}
    {rest : List MXRecord} (h : sortByPref l = m :: rest) :
    m ∈ l ∧ ∀ r ∈ l, m.preference ≤ r.preference := by
  induction l generalizing m rest with
  | nil => simp [sortByPref] at h
  | cons a l' ih =>
    rw [sortByPref] at h
    rcases hs : sortByPref l' with _ | ⟨b, bs⟩
    · rw [hs] at h
      simp only [insertByPref] at h
      have hl' : l' = [] := sortByPref_eq_nil_iff.mp hs
      subst hl'
      obtain ⟨rfl, -⟩ := List.cons.injEq .. ▸ h
      refine ⟨List.mem_cons_self a [], ?_⟩
      intro r hr
      rcases List.mem_cons.mp hr with rfl | hr
      · exact le_refl _
      · simp at hr
    · rw [hs] at h
      rw [insertByPref] at h
      obtain ⟨hb_mem, hb_min⟩ := ih hs
      by_cases hba : b.preference < a.preference
      · rw [if_pos hba] at h
        obtain ⟨rfl, -⟩ := List.cons.injEq .. ▸ h
        refine ⟨List.mem_cons_of_mem a hb_mem, ?_⟩
        intro r hr
        rcases List.mem_cons.mp hr with rfl | hr
        · exact le_of_lt hba
        · exact hb_min r hr
      · rw [if_neg hba] at h
        obtain ⟨rfl, -⟩ := List.cons.injEq .. ▸ h
        refine ⟨List.mem_cons_self _ _, ?_⟩
        intro r hr
        rcases List.mem_cons.mp hr with rfl | hr
        · exact le_refl _
        · exact le_trans (le_of_not_lt hba) (hb_min r hr)

lemma standardLoop_contacted (E : NetEnv) (ms : List MXRecord) :
    ∃ k, (standardLoop E ms).2 = (ms.map MXRecord.exchange).take k ∧
      (standardLoop E ms).2.length ≤ ms.length := by
  induction ms with
  | nil => exact ⟨0, by simp [standardLoop]⟩
  | cons m rest ih =>
    rcases hc : classifyStdAttempt (E.smtpStd m.exchange) with _ | s
    · obtain ⟨k, hk, hlen⟩ := ih
      refine ⟨k + 1, ?_, ?_⟩
      · simp [standardLoop, hc, hk]
      · simp only [standardLoop, hc, List.length_cons]
        omega
    · exact ⟨1, by simp [standardLoop, hc], by simp [standardLoop, hc]⟩

lemma standardLoop_all_other (E : NetEnv) (ms : List MXRecord)
    (h : ∀ m ∈ ms, E.smtpStd m.exchange = SMTPOutcome.otherException) :
    standardLoop E ms = ("risky", ms.map MXRecord.exchange) := by
  induction ms with
  | nil => rfl
  | cons m rest ih =>
    have hm := h m (List.mem_cons_self m rest)
    have ht := ih (fun x hx => h x (List.mem_cons_of_mem _ hx))
    simp [standardLoop, hm, classifyStdAttempt, ht]

/-- The entry the collection loop produces for one completed pipeline:
its result dictionary, or the error entry when the pipeline raised. -/
def pipelineEntry (E : NetEnv) (fm : Bool) (e : String) :
    VerificationResult :=
  match (verify_single_email E fm false e).1 with
  | Except.ok r => r
  | Except.error _ => errorEntry e

lemma batchLoop_results (E : NetEnv) (fm : Bool) (total : Nat)
    (order : List String) : ∀ p : Nat,
    (batchLoop E fm false total order p).1 =
      order.map (pipelineEntry E fm) := by
  induction order with
  | nil => intro p; rfl
  | cons e rest ih =>
    intro p
    rcases hres : (verify_single_email E fm false e).1 with u | r <;>
      simp [batchLoop, hres, pipelineEntry, ih]

lemma batchLoop_callbacks (E : NetEnv) (fm : Bool) (total : Nat)
    (order : List String) : ∀ p : Nat,
    (batchLoop E fm false total order p).2 =
      (List.range (order.countP
          (fun e => (verify_single_email E fm false e).1.isOk))).map
        (fun i => (p + 1 + i, total)) := by
  induction order with
  | nil => intro p; rfl
  | cons e rest ih =>
    intro p
    rcases hres : (verify_single_email E fm false e).1 with u | r
    · have hcount : (e :: rest).countP
          (fun e => (verify_single_email E fm false e).1.isOk) =
          rest.countP (fun e => (verify_single_email E fm false e).1.isOk) := by
        simp [List.countP_cons, hres, Except.isOk, Except.toBool]
      simp [batchLoop, hres, hcount, ih]
    · have hcount : (e :: rest).countP
          (fun e => (verify_single_email E fm false e).1.isOk) =
          rest.countP (fun e => (verify_single_email E fm false e).1.isOk) + 1 := by
        simp [List.countP_cons, hres, Except.isOk, Except.toBool]
      simp only [batchLoop, hres, Bool.false_eq_true, if_false, hcount, ih]
      rw [List.range_succ_eq_map]
      simp only [List.map_cons, List.map_map, Nat.add_zero]
      congr 1
      apply List.map_congr_left
      intro i hi
      simp only [Function.comp_apply, Prod.mk.injEq]
      exact ⟨by omega, trivial⟩

lemma countP_bool_split {α : Type} (p : α → Bool) (l : List α) :
    l.countP p + l.countP (fun a => !p a) = l.length := by
  induction l with
  | nil => simp
  | cons a l ih =>
    simp only [List.countP_cons, List.length_cons]
    cases hpa : p a <;> simp [hpa] <;> omega

lemma classifyRcptCode_valid_iff (c : Nat) :
    classifyRcptCode c = "valid" ↔ c = 250 := by
  unfold classifyRcptCode
  by_cases h1 : c = 250
  · simp [h1]
  · by_cases h2 : c = 550 <;> simp [h1, h2]

lemma classifyRcptCode_invalid_iff (c : Nat) :
    classifyRcptCode c = "invalid" ↔ c = 550 := by
  unfold classifyRcptCode
  by_cases h1 : c = 250
  · simp [h1]
  · by_cases h2 : c = 550 <;> simp [h1, h2]

lemma classifyRcptCode_risky (c : Nat) (h1 : c ≠ 250) (h2 : c ≠ 550) :
    classifyRcptCode c = "risky" := by
  simp [classifyRcptCode, h1, h2]

/-- C1: for both probing modes, once the probe reaches the chosen
exchanger (the head `m` of the preference-sorted record list), a
`RCPT TO` reply code classifies as `valid` exactly for 250 and as
`invalid` exactly for 550, and any other reply code as `risky`; a clean
recipient-refused rejection (`SMTPRecipientsRefused`, or an
`SMTPResponseException` carrying code 550) classifies as `invalid`; and
every other exception yields `risky` — immediately in fast mode, and in
standard mode once the `continue` branch has exhausted the remaining
attempted exchanger without a definitive classification (the spec's "on
any non-refusal exception, continue to the next exchanger"). -/
theorem smtp_reply_classification (E : NetEnv) (email domain : String)
    (recs : List MXRecord) (m : MXRecord) (ms : List MXRecord)
    (o : SMTPOutcome)
    (hdom : splitAtDomain email = some domain)
    (hrf : E.resolveFast domain = some recs)
    (hrs : E.resolveStd domain = some recs)
    (hne : recs ≠ [])
    (hsort : sortByPref recs = m :: ms)
    (hf : E.smtpFast m.exchange = o)
    (hs : E.smtpStd m.exchange = o) :
    (∀ c, o = SMTPOutcome.reply c →
      ((check_smtp_connection_fast E email).1 = "valid" ↔ c = 250) ∧
      ((check_smtp_connection_standard E email).1 = "valid" ↔ c = 250) ∧
      ((check_smtp_connection_fast E email).1 = "invalid" ↔ c = 550) ∧
      ((check_smtp_connection_standard E email).1 = "invalid" ↔ c = 550) ∧
      (c ≠ 250 → c ≠ 550 →
        (check_smtp_connection_fast E email).1 = "risky" ∧
        (check_smtp_connection_standard E email).1 = "risky")) ∧
    (o = SMTPOutcome.recipientsRefused →
      (check_smtp_connection_fast E email).1 = "invalid" ∧
      (check_smtp_connection_standard E email).1 = "invalid") ∧
    (∀ c, o = SMTPOutcome.responseException c →
      (c = 550 →
        (check_smtp_connection_fast E email).1 = "invalid" ∧
        (check_smtp_connection_standard E email).1 = "invalid") ∧
      (c ≠ 550 →
        (check_smtp_connection_fast E email).1 = "risky" ∧
        (check_smtp_connection_standard E email).1 = "risky")) ∧
    (o = SMTPOutcome.otherException →
      (check_smtp_connection_fast E email).1 = "risky" ∧
      ((∀ r ∈ ms.take 1, E.smtpStd r.exchange = SMTPOutcome.otherException) →
        (check_smtp_connection_standard E email).1 = "risky")) := by
  have hfast : check_smtp_connection_fast E email =
      (classifyFastAttempt o, [m.exchange]) := by
    simp [check_smtp_connection_fast, hdom, hrf, hne, hsort, hf]
  have htake : (sortByPref recs).take 2 = m :: ms.take 1 := by
    rw [hsort]
    rfl
  have hstd : check_smtp_connection_standard E email =
      standardLoop E (m :: ms.take 1) := by
    simp [check_smtp_connection_standard, hdom, hrs, hne, htake]
  refine ⟨?_, ?_, ?_, ?_⟩
  · intro c hc
    subst hc
    have hfv : (check_smtp_connection_fast E email).1 = classifyRcptCode c := by
      rw [hfast]; rfl
    have hsv : (check_smtp_connection_standard E email).1 = classifyRcptCode c := by
      rw [hstd]
      simp [standardLoop, hs, classifyStdAttempt]
    rw [hfv, hsv]
    refine ⟨classifyRcptCode_valid_iff c, classifyRcptCode_valid_iff c,
      classifyRcptCode_invalid_iff c, classifyRcptCode_invalid_iff c, ?_⟩
    intro h1 h2
    exact ⟨classifyRcptCode_risky c h1 h2, classifyRcptCode_risky c h1 h2⟩
  · intro hc
    subst hc
    constructor
    · rw [hfast]; rfl
    · rw [hstd]
      simp [standardLoop, hs, classifyStdAttempt]
  · intro c hc
    subst hc
    constructor
    · intro h550
      subst h550
      constructor
      · rw [hfast]; simp [classifyFastAttempt]
      · rw [hstd]
        simp [standardLoop, hs, classifyStdAttempt]
    · intro h550
      constructor
      · rw [hfast]; simp [classifyFastAttempt, h550]
      · rw [hstd]
        simp [standardLoop, hs, classifyStdAttempt, h550]
  · intro hc
    subst hc
    constructor
    · rw [hfast]; rfl
    · intro hrest
      have hall : ∀ r ∈ m :: ms.take 1,
          E.smtpStd r.exchange = SMTPOutcome.otherException := by
        intro r hr
        rcases List.mem_cons.mp hr with rfl | hr
        · exact hs
        · exact hrest r hr
      rw [hstd, standardLoop_all_other E _ hall]

/-- C1 witness at a concrete environment: a 250 reply on the lowest
preference exchanger classifies as valid in both modes. -/
theorem smtp_reply_classification_witness :
    splitAtDomain "a@b.com" = some "b.com" ∧
    (check_smtp_connection_fast exEnvA "a@b.com").1 = "valid" ∧
    (check_smtp_connection_standard exEnvA "a@b.com").1 = "valid" := by
  have h := smtp_reply_classification exEnvA "a@b.com" "b.com"
    [⟨"mx1.b.com", 5⟩, ⟨"mx2.b.com", 10⟩] ⟨"mx1.b.com", 5⟩
    [⟨"mx2.b.com", 10⟩] (SMTPOutcome.reply 250) rfl rfl rfl
    (List.cons_ne_nil _ _) rfl rfl rfl
  have h2 := h.1 250 rfl
  exact ⟨rfl, h2.1.mpr rfl, h2.2.1.mpr rfl⟩

/-- C4: under a successful MX resolution, fast-mode probing opens an SMTP
session to at most one exchanger, and any contacted exchanger is one of
the resolved records with minimal preference value; standard-mode
probing contacts at most two exchangers, namely an in-order prefix of
the first two preference-sorted exchangers, and returns `risky` when
both attempts are exhausted without a definitive classification. -/
theorem probe_exchanger_budget (E : NetEnv) (email domain : String)
    (recs : List MXRecord)
    (hdom : splitAtDomain email = some domain)
    (hrf : E.resolveFast domain = some recs)
    (hrs : E.resolveStd domain = some recs)
    (hne : recs ≠ []) :
    (check_smtp_connection_fast E email).2.length ≤ 1 ∧
    (∀ h ∈ (check_smtp_connection_fast E email).2,
      ∃ r, r ∈ recs ∧ r.exchange = h ∧
        ∀ q ∈ recs, r.preference ≤ q.preference) ∧
    (check_smtp_connection_standard E email).2.length ≤ 2 ∧
    (∃ k, (check_smtp_connection_standard E email).2 =
      (((sortByPref recs).take 2).map MXRecord.exchange).take k) ∧
    ((∀ r ∈ (sortByPref recs).take 2,
        E.smtpStd r.exchange = SMTPOutcome.otherException) →
      (check_smtp_connection_standard E email).1 = "risky") := by
  rcases hsort : sortByPref recs with _ | ⟨m, ms⟩
  · exact absurd (sortByPref_eq_nil_iff.mp hsort) hne
  · have hfast : check_smtp_connection_fast E email =
        (classifyFastAttempt (E.smtpFast m.exchange), [m.exchange]) := by
      simp [check_smtp_connection_fast, hdom, hrf, hne, hsort]
    have hstd : check_smtp_connection_standard E email =
        standardLoop E ((m :: ms).take 2) := by
      simp [check_smtp_connection_standard, hdom, hrs, hne, hsort]
    obtain ⟨hm_mem, hm_min⟩ := sortByPref_head_min hsort
    obtain ⟨k, hk, hklen⟩ := standardLoop_contacted E ((m :: ms).take 2)
    refine ⟨?_, ?_, ?_, ?_, ?_⟩
    · rw [hfast]
      simp
    · rw [hfast]
      intro h hh
      simp only [List.mem_singleton] at hh
      subst hh
      exact ⟨m, hm_mem, rfl, hm_min⟩
    · rw [hstd]
      refine le_trans hklen ?_
      rw [List.length_take]
      exact min_le_left _ _
    · rw [hstd]
      exact ⟨k, hk⟩
    · intro hall
      rw [hstd, standardLoop_all_other E _ hall]

/-- C4 witness at a concrete environment with two resolved exchangers. -/
theorem probe_exchanger_budget_witness :
    (check_smtp_connection_fast exEnvA "a@b.com").2.length ≤ 1 ∧
    (check_smtp_connection_standard exEnvA "a@b.com").2.length ≤ 2 := by
  have h := probe_exchanger_budget exEnvA "a@b.com" "b.com"
    [⟨"mx1.b.com", 5⟩, ⟨"mx2.b.com", 10⟩] rfl rfl rfl (List.cons_ne_nil _ _)
  exact ⟨h.1, h.2.2.1⟩

/-- C5: an address that fails the syntax check yields a result with
status `invalid` and format `false`, with zero network-performing
stages executed (neither the MX lookup nor the SMTP probe is reached);
and, showing the fixed syntax → MX → SMTP order, an address that passes
the syntax check but has no MX record yields status `invalid` having
executed only the MX stage (one network stage, no SMTP probe). -/
theorem syntax_short_circuit (E : NetEnv) (fm : Bool)
    (email domain : String) :
    (check_email_format E.validate email = Except.ok false →
      verify_single_email E fm false email =
        (Except.ok ⟨email, false, false, "invalid", "invalid"⟩, 0)) ∧
    (check_email_format E.validate email = Except.ok true →
      splitAtDomain email = some domain →
      E.mxCheck domain = false →
      verify_single_email E fm false email =
        (Except.ok ⟨email, true, false, "invalid", "invalid"⟩, 1)) := by
  constructor
  · intro h
    simp [verify_single_email, h]
  · intro h hd hmx
    simp [verify_single_email, h, hd, hmx]

/-- C5 witness: a concrete syntactically rejected address. -/
theorem syntax_short_circuit_witness :
    check_email_format exEnvC.validate "not-an-email" = Except.ok false ∧
    verify_single_email exEnvC true false "not-an-email" =
      (Except.ok ⟨"not-an-email", false, false, "invalid", "invalid"⟩, 0) :=
  ⟨rfl, (syntax_short_circuit exEnvC true "not-an-email" "x").1 rfl⟩

/-- C3 counterexample: `check_email_format` catches only
`EmailNotValidError`; when the underlying `validate_email` call raises
an exception of another type, the exception escapes instead of
producing the value `false`, refuting "never propagates an exception"
and "any exception results in false". -/
theorem format_exception_cex :
    check_email_format (fun _ => ValidateOutcome.otherError) "a@b.com" =
      Except.error () ∧
    Except.error () ≠ (Except.ok false : Except Unit Bool) ∧
    Except.error () ≠ (Except.ok true : Except Unit Bool) :=
  ⟨rfl, nofun, nofun⟩

/-- C3 (amended): a normal return of the underlying syntax check yields
`true`, an `EmailNotValidError` yields `false`, and an exception of any
other type propagates out of `check_email_format` unhandled. -/
theorem format_exception_amended (validate : String → ValidateOutcome)
    (email : String) :
    (validate email = ValidateOutcome.ok →
      check_email_format validate email = Except.ok true) ∧
    (validate email = ValidateOutcome.emailNotValid →
      check_email_format validate email = Except.ok false) ∧
    (validate email = ValidateOutcome.otherError →
      check_email_format validate email = Except.error ()) := by
  refine ⟨?_, ?_, ?_⟩ <;> intro h <;> simp [check_email_format, h]

/-- C3 witness: a concrete `EmailNotValidError` yields `false`. -/
theorem format_exception_amended_witness :
    (fun _ : String => ValidateOutcome.emailNotValid) "nope" =
      ValidateOutcome.emailNotValid ∧
    check_email_format (fun _ => ValidateOutcome.emailNotValid) "nope" =
      Except.ok false :=
  ⟨rfl, (format_exception_amended
    (fun _ => ValidateOutcome.emailNotValid) "nope").2.1 rfl⟩

/-- C2 counterexample: the flag set by `cancel_verification` before the
batch call is discarded by the reset at line 188, so the batch runs the
full pipeline: the single entry comes back `valid` (not `cancelled`) and
two network-performing stages were executed (not zero). -/
theorem cancel_before_batch_cex :
    verify_emails_batch exEnvA (cancel_verification ⟨false, 0, 0⟩) true 20
      ["a@b.com"] ["a@b.com"] false =
    Except.ok ([⟨"a@b.com", true, true, "valid", "valid"⟩], [(1, 1)], 2) ∧
    "valid" ≠ "cancelled" ∧ (2 : Nat) ≠ 0 :=
  ⟨rfl, by decide, by decide⟩

/-- C2 (amended): the entry reset makes a prior `cancel_verification`
call invisible — the batch result does not depend on the incoming flag
at all; when the flag is set after the reset and before any pipeline
starts, every per-address pipeline yields a `cancelled` result without
executing any network-performing stage, but the collection loop
observes the flag at its first iteration and breaks, so the batch
returns the empty result list (no callbacks, zero network stages)
rather than one cancelled entry per address. -/
theorem cancel_flag_reset_amended (E : NetEnv) (s : VerifierState)
    (fm : Bool) (mw : Nat) (emails order : List String) (cd : Bool)
    (hguard : min mw (min emails.length 50) ≠ 0) :
    (verify_emails_batch E s fm mw emails order cd =
      verify_emails_batch E (cancel_verification s) fm mw emails order cd) ∧
    verify_emails_batch E s fm mw emails order true =
      Except.ok ([], [], 0) ∧
    ∀ e ∈ order, verify_single_email E fm true e =
      (Except.ok ⟨e, false, false, "cancelled", "cancelled"⟩, 0) := by
  refine ⟨rfl, ?_, ?_⟩
  · unfold verify_emails_batch
    rw [if_neg hguard]
    have hloop : batchLoop E fm (false || true) emails.length order 0 = ([], []) := by
      cases order <;> simp [batchLoop]
    have hnet : (order.map
        (fun e => (verify_single_email E fm (false || true) e).2)).sum = 0 := by
      apply List.sum_eq_zero
      intro x hx
      obtain ⟨e, he, rfl⟩ := List.mem_map.mp hx
      rfl
    simp only [hloop, hnet]
  · intro e he
    rfl

/-- C2 witness for the amended claim at a concrete one-address batch. -/
theorem cancel_flag_reset_amended_witness :
    min 20 (min (["a@b.com"] : List String).length 50) ≠ 0 ∧
    verify_emails_batch exEnvA ⟨false, 0, 0⟩ true 20 ["a@b.com"]
      ["a@b.com"] true = Except.ok ([], [], 0) :=
  ⟨by decide,
   (cancel_flag_reset_amended exEnvA ⟨false, 0, 0⟩ true 20 ["a@b.com"]
     ["a@b.com"] false (by decide)).2.1⟩

/-- C6: on the empty address list the worker-count optimization
`min(max_workers, len(emails), 50)` is `0` and `ThreadPoolExecutor`
raises `ValueError`, which escapes `verify_emails_batch` — a hard
failure for the whole batch, contradicting the claim for that input;
on a nonempty list the behavior the claim describes holds: the
per-address exception produces an `error` entry for that address only
while the other address is still processed and the result list is sized
to the input. -/
theorem batch_empty_list_value_error :
    verify_emails_batch exEnvA ⟨false, 0, 0⟩ true 20 [] [] false =
      Except.error () ∧
    verify_emails_batch exEnvB ⟨false, 0, 0⟩ true 20 ["a@b.com", "bad"]
      ["bad", "a@b.com"] false =
      Except.ok
        ([errorEntry "bad", ⟨"a@b.com", true, true, "valid", "valid"⟩],
         [(1, 2)], 2) :=
  ⟨rfl, rfl⟩

/-- C7 counterexample: a pipeline that raises produces an `error` entry
through the `except` branch, which appends to the result list without
invoking the progress callback — one result, zero callback invocations,
refuting "invocations equal the number of results returned". -/
theorem progress_callback_cex :
    verify_emails_batch exEnvB ⟨false, 0, 0⟩ true 20 ["bad"] ["bad"] false =
      Except.ok ([errorEntry "bad"], [], 0) ∧
    ([] : List (Nat × Nat)).length ≠ [errorEntry "bad"].length :=
  ⟨rfl, by decide⟩

/-- C7 (amended): the progress callback is invoked exactly once per
pipeline whose result is retrieved without an exception, with arguments
`(completedCount, totalCount)` where `completedCount` increments by one
per such retrieval; a pipeline that raises contributes an `error` entry
to the results but no callback, so the invocation count equals the
number of results minus the number of exception-derived error entries,
and equals the number of results exactly when no pipeline raised. -/
theorem progress_callback_amended (E : NetEnv) (s : VerifierState)
    (fm : Bool) (mw : Nat) (emails order : List String)
    (hguard : min mw (min emails.length 50) ≠ 0) :
    ∃ results cbs net,
      verify_emails_batch E s fm mw emails order false =
        Except.ok (results, cbs, net) ∧
      cbs = (List.range (order.countP
          (fun e => (verify_single_email E fm false e).1.isOk))).map
        (fun i => (i + 1, emails.length)) ∧
      cbs.length + order.countP
          (fun e => !(verify_single_email E fm false e).1.isOk) =
        results.length ∧
      ((∀ e ∈ order, (verify_single_email E fm false e).1.isOk) →
        cbs.length = results.length) := by
  unfold verify_emails_batch
  rw [if_neg hguard]
  simp only [Bool.false_or]
  refine ⟨_, _, _, rfl, ?_, ?_, ?_⟩
  · rw [batchLoop_callbacks]
    apply List.map_congr_left
    intro i hi
    simp only [Prod.mk.injEq]
    exact ⟨by omega, trivial⟩
  · rw [batchLoop_callbacks, batchLoop_results]
    simp only [List.length_map, List.length_range]
    exact countP_bool_split _ order
  · intro hall
    rw [batchLoop_callbacks, batchLoop_results]
    simp only [List.length_map, List.length_range]
    exact List.countP_eq_length.mpr hall

/-- C7 witness for the amended claim: with no raising pipeline the
callback count equals the result count. -/
theorem progress_callback_amended_witness :
    min 20 (min (["a@b.com"] : List String).length 50) ≠ 0 ∧
    (∀ e ∈ (["a@b.com"] : List String),
      (verify_single_email exEnvA true false e).1.isOk) ∧
    ∃ results cbs net,
      verify_emails_batch exEnvA ⟨false, 0, 0⟩ true 20 ["a@b.com"]
        ["a@b.com"] false = Except.ok (results, cbs, net) ∧
      cbs.length = results.length := by
  obtain ⟨results, cbs, net, h1, h2, h3, h4⟩ :=
    progress_callback_amended exEnvA ⟨false, 0, 0⟩ true 20 ["a@b.com"]
      ["a@b.com"] (by decide)
  exact ⟨by decide, by decide, results, cbs, net, h1, h4 (by decide)⟩

lemma worker_stats_counts (sendOk : Nat → Bool) (errText : Nat → String)
    (sb b : String) (hb : Option String) (ts : List Target) :
    ∀ (i : Nat) (s : CampaignStats),
      (send_bulk_emails_worker sendOk errText (fun _ => false)
          sb b hb ts i s).1 =
        { s with
          total_sent := s.total_sent + ts.length,
          successful := s.successful + (List.range' i ts.length).countP sendOk,
          failed := s.failed +
            (List.range' i ts.length).countP (fun j => !sendOk j) } := by
  induction ts with
  | nil => intro i s; rfl
  | cons t ts ih =>
    intro i s
    simp only [send_bulk_emails_worker, Bool.false_eq_true, if_false]
    rw [ih]
    rw [List.length_cons, List.range'_succ, List.countP_cons, List.countP_cons]
    cases hok : sendOk i <;>
      simp [send_single_email, hok, CampaignStats.mk.injEq] <;> omega

lemma worker_entries_length (sendOk : Nat → Bool) (errText : Nat → String)
    (sb b : String) (hb : Option String) (ts : List Target) :
    ∀ (i : Nat) (s : CampaignStats),
      (send_bulk_emails_worker sendOk errText (fun _ => false)
          sb b hb ts i s).2.1.length = ts.length := by
  induction ts with
  | nil => intro i s; rfl
  | cons t ts ih =>
    intro i s
    simp only [send_bulk_emails_worker, Bool.false_eq_true, if_false,
      List.length_cons]
    rw [ih]

lemma worker_entry_get (sendOk : Nat → Bool) (errText : Nat → String)
    (sb b : String) (hb : Option String) (ts : List Target) :
    ∀ (i : Nat) (s : CampaignStats) (k : Nat) (t : Target),
      ts[k]? = some t →
      (send_bulk_emails_worker sendOk errText (fun _ => false)
          sb b hb ts i s).2.1[k]? =
        some ⟨t.email, t.name,
          (send_single_email sendOk errText (i + k) t.email).status,
          (send_single_email sendOk errText (i + k) t.email).message⟩ := by
  induction ts with
  | nil => intro i s k t h; simp at h
  | cons a ts ih =>
    intro i s k t h
    cases k with
    | zero =>
      rw [List.getElem?_cons_zero] at h
      obtain rfl : a = t := Option.some.inj h
      simp [send_bulk_emails_worker]
    | succ k =>
      rw [List.getElem?_cons_succ] at h
      simp only [send_bulk_emails_worker, Bool.false_eq_true, if_false,
        List.getElem?_cons_succ]
      rw [ih (i + 1) _ k t h]
      have harith : i + 1 + k = i + (k + 1) := by omega
      rw [harith]

lemma worker_message_get (sendOk : Nat → Bool) (errText : Nat → String)
    (sb b : String) (hb : Option String) (ts : List Target) :
    ∀ (i : Nat) (s : CampaignStats) (k : Nat) (t : Target),
      ts[k]? = some t →
      (send_bulk_emails_worker sendOk errText (fun _ => false)
          sb b hb ts i s).2.2[k]? =
        some ⟨t.email, personalize sb t.name, personalize b t.name,
          personalizeHtml hb t.name⟩ := by
  induction ts with
  | nil => intro i s k t h; simp at h
  | cons a ts ih =>
    intro i s k t h
    cases k with
    | zero =>
      rw [List.getElem?_cons_zero] at h
      obtain rfl : a = t := Option.some.inj h
      simp [send_bulk_emails_worker]
    | succ k =>
      rw [List.getElem?_cons_succ] at h
      simp only [send_bulk_emails_worker, Bool.false_eq_true, if_false,
        List.getElem?_cons_succ]
      exact ih (i + 1) _ k t h

/-- C8: a `send_bulk_emails` call while `is_sending` is set returns the
explicit already-sending error dictionary synchronously and leaves the
dispatcher state (flags and campaign statistics) unchanged; the worker
thread for the new request is never started, so nothing is queued. -/
theorem busy_send_rejected (s : SenderState) (now : Nat)
    (emails : List Target) (h : s.is_sending = true) :
    send_bulk_emails s now emails =
      (s, ⟨"error", "Already sending emails"⟩) := by
  simp [send_bulk_emails, h]

/-- C8 witness: a concrete busy dispatcher state is returned untouched. -/
theorem busy_send_rejected_witness :
    (⟨true, false, ⟨3, 2, 1, some 5, none⟩⟩ : SenderState).is_sending =
      true ∧
    send_bulk_emails ⟨true, false, ⟨3, 2, 1, some 5, none⟩⟩ 7
      [⟨"a@b.com", "A"⟩] =
      (⟨true, false, ⟨3, 2, 1, some 5, none⟩⟩,
       ⟨"error", "Already sending emails"⟩) :=
  ⟨rfl, busy_send_rejected _ _ _ rfl⟩

/-- C9: in the campaign send loop, starting from the reset statistics,
`total_sent = successful + failed` holds after every iteration (the
statistics after `k` iterations are those of the run on the first `k`
targets) and at completion `total_sent` equals the number of targets;
each attempted target increments `total_sent` by one and exactly one of
`successful`/`failed`; and a failing send is recorded as an entry with
status `error` while the loop proceeds, every target receiving exactly
one entry. -/
theorem campaign_stats_invariant (sendOk : Nat → Bool)
    (errText : Nat → String) (subject body : String)
    (html : Option String) (now : Nat) (targets : List Target) (k : Nat) :
    ((send_bulk_emails_worker sendOk errText (fun _ => false) subject body
        html (targets.take k) 0 ⟨0, 0, 0, some now, none⟩).1.total_sent =
      (send_bulk_emails_worker sendOk errText (fun _ => false) subject body
        html (targets.take k) 0 ⟨0, 0, 0, some now, none⟩).1.successful +
      (send_bulk_emails_worker sendOk errText (fun _ => false) subject body
        html (targets.take k) 0 ⟨0, 0, 0, some now, none⟩).1.failed) ∧
    (send_bulk_emails_worker sendOk errText (fun _ => false) subject body
        html targets 0 ⟨0, 0, 0, some now, none⟩).1.total_sent =
      targets.length ∧
    (send_bulk_emails_worker sendOk errText (fun _ => false) subject body
        html targets 0 ⟨0, 0, 0, some now, none⟩).2.1.length =
      targets.length ∧
    (∀ t, targets[k]? = some t →
      ((send_bulk_emails_worker sendOk errText (fun _ => false) subject body
          html (targets.take (k + 1)) 0
          ⟨0, 0, 0, some now, none⟩).1.total_sent =
        (send_bulk_emails_worker sendOk errText (fun _ => false) subject body
          html (targets.take k) 0
          ⟨0, 0, 0, some now, none⟩).1.total_sent + 1) ∧
      (sendOk k = true →
        (send_bulk_emails_worker sendOk errText (fun _ => false) subject body
            html (targets.take (k + 1)) 0
            ⟨0, 0, 0, some now, none⟩).1.successful =
          (send_bulk_emails_worker sendOk errText (fun _ => false) subject
            body html (targets.take k) 0
            ⟨0, 0, 0, some now, none⟩).1.successful + 1 ∧
        (send_bulk_emails_worker sendOk errText (fun _ => false) subject body
            html (targets.take (k + 1)) 0
            ⟨0, 0, 0, some now, none⟩).1.failed =
          (send_bulk_emails_worker sendOk errText (fun _ => false) subject
            body html (targets.take k) 0
            ⟨0, 0, 0, some now, none⟩).1.failed) ∧
      (sendOk k = false →
        (send_bulk_emails_worker sendOk errText (fun _ => false) subject body
            html (targets.take (k + 1)) 0
            ⟨0, 0, 0, some now, none⟩).1.failed =
          (send_bulk_emails_worker sendOk errText (fun _ => false) subject
            body html (targets.take k) 0
            ⟨0, 0, 0, some now, none⟩).1.failed + 1 ∧
        (send_bulk_emails_worker sendOk errText (fun _ => false) subject body
            html (targets.take (k + 1)) 0
            ⟨0, 0, 0, some now, none⟩).1.successful =
          (send_bulk_emails_worker sendOk errText (fun _ => false) subject
            body html (targets.take k) 0
            ⟨0, 0, 0, some now, none⟩).1.successful) ∧
      (send_bulk_emails_worker sendOk errText (fun _ => false) subject body
          html targets 0 ⟨0, 0, 0, some now, none⟩).2.1[k]? =
        some ⟨t.email, t.name, if sendOk k then "success" else "error",
          (send_single_email sendOk errText k t.email).message⟩) := by
  have hW : ∀ l : List Target,
      (send_bulk_emails_worker sendOk errText (fun _ => false) subject body
        html l 0 ⟨0, 0, 0, some now, none⟩).1 =
      { total_sent := l.length,
        successful := (List.range' 0 l.length).countP sendOk,
        failed := (List.range' 0 l.length).countP (fun j => !sendOk j),
        start_time := some now, end_time := none } := by
    intro l
    rw [worker_stats_counts]
    simp
  have hsplitlen : ∀ n : Nat, (List.range' 0 n).countP sendOk +
      (List.range' 0 n).countP (fun j => !sendOk j) = n := by
    intro n
    have h := countP_bool_split sendOk (List.range' 0 n)
    simpa using h
  have hsplit : ∀ (p : Nat → Bool) (n : Nat),
      (List.range' 0 (n + 1)).countP p =
        (List.range' 0 n).countP p + (if p n then 1 else 0) := by
    intro p n
    rw [List.range'_1_concat, List.countP_append]
    simp [List.countP_cons]
  refine ⟨?_, ?_, ?_, ?_⟩
  · rw [hW]
    exact (hsplitlen _).symm
  · rw [hW]
  · exact worker_entries_length sendOk errText subject body html targets 0 _
  · intro t ht
    obtain ⟨hk, -⟩ := List.getElem?_eq_some.mp ht
    have hlen1 : (targets.take k).length = k := by
      rw [List.length_take]
      omega
    have hlen2 : (targets.take (k + 1)).length = k + 1 := by
      rw [List.length_take]
      omega
    refine ⟨?_, ?_, ?_, ?_⟩
    · rw [hW, hW]
      show (targets.take (k + 1)).length = (targets.take k).length + 1
      rw [hlen1, hlen2]
    · intro hok
      constructor
      · rw [hW, hW]
        show (List.range' 0 (targets.take (k + 1)).length).countP sendOk =
          (List.range' 0 (targets.take k).length).countP sendOk + 1
        rw [hlen1, hlen2, hsplit sendOk k, hok]
        simp
      · rw [hW, hW]
        show (List.range' 0 (targets.take (k + 1)).length).countP
            (fun j => !sendOk j) =
          (List.range' 0 (targets.take k).length).countP (fun j => !sendOk j)
        rw [hlen1, hlen2, hsplit (fun j => !sendOk j) k]
        simp [hok]
    · intro hok
      constructor
      · rw [hW, hW]
        show (List.range' 0 (targets.take (k + 1)).length).countP
            (fun j => !sendOk j) =
          (List.range' 0 (targets.take k).length).countP
            (fun j => !sendOk j) + 1
        rw [hlen1, hlen2, hsplit (fun j => !sendOk j) k]
        simp [hok]
      · rw [hW, hW]
        show (List.range' 0 (targets.take (k + 1)).length).countP sendOk =
          (List.range' 0 (targets.take k).length).countP sendOk
        rw [hlen1, hlen2, hsplit sendOk k, hok]
        simp
    · have hg := worker_entry_get sendOk errText subject body html targets 0
        ⟨0, 0, 0, some now, none⟩ k t ht
      rw [Nat.zero_add] at hg
      rw [hg]
      have hst : (send_single_email sendOk errText k t.email).status =
          if sendOk k then "success" else "error" := by
        by_cases hok : sendOk k = true <;> simp [send_single_email, hok]
      rw [hst]

/-- C9 witness: two targets, the second send failing: two entries, the
second recorded with status `error`, and `total_sent = 2`. -/
theorem campaign_stats_invariant_witness :
    (([⟨"a@a", ""⟩, ⟨"b@b", "B"⟩] : List Target))[1]? =
      some ⟨"b@b", "B"⟩ ∧
    (send_bulk_emails_worker (fun i => i == 0) (fun _ => "boom")
        (fun _ => false) "s" "b" none [⟨"a@a", ""⟩, ⟨"b@b", "B"⟩] 0
        ⟨0, 0, 0, some 0, none⟩).1.total_sent = 2 ∧
    (send_bulk_emails_worker (fun i => i == 0) (fun _ => "boom")
        (fun _ => false) "s" "b" none [⟨"a@a", ""⟩, ⟨"b@b", "B"⟩] 0
        ⟨0, 0, 0, some 0, none⟩).2.1[1]? =
      some ⟨"b@b", "B", "error",
        (send_single_email (fun i => i == 0) (fun _ => "boom") 1
          "b@b").message⟩ := by
  have h := campaign_stats_invariant (fun i => i == 0) (fun _ => "boom")
    "s" "b" none 0 [⟨"a@a", ""⟩, ⟨"b@b", "B"⟩] 1
  have h4 := h.2.2.2 ⟨"b@b", "B"⟩ rfl
  refine ⟨rfl, ?_, ?_⟩
  · exact h.2.1.trans (by decide)
  · have he := h4.2.2.2
    simpa using he

/-- C10: the message handed to `send_single_email` for target `k` has
subject/body/html produced by the personalization step; for a target
with a missing or empty name the subject and both bodies are passed
through completely unchanged (so a literal name token remains visible
in the delivered message), while for a nonempty name each template has
every occurrence of the name token replaced. -/
theorem personalization_token (sendOk : Nat → Bool)
    (errText : Nat → String) (subject body : String)
    (html : Option String) (now : Nat) (targets : List Target) (k : Nat)
    (t : Target) (ht : targets[k]? = some t) :
    ((send_bulk_emails_worker sendOk errText (fun _ => false) subject body
        html targets 0 ⟨0, 0, 0, some now, none⟩).2.2[k]? =
      some ⟨t.email, personalize subject t.name, personalize body t.name,
        personalizeHtml html t.name⟩) ∧
    (t.name = "" →
      (send_bulk_emails_worker sendOk errText (fun _ => false) subject body
          html targets 0 ⟨0, 0, 0, some now, none⟩).2.2[k]? =
        some ⟨t.email, subject, body, html⟩) ∧
    (t.name ≠ "" →
      personalize subject t.name = subject.replace nameToken t.name ∧
      personalize body t.name = body.replace nameToken t.name ∧
      ∀ hb, html = some hb →
        personalizeHtml html t.name =
          some (hb.replace nameToken t.name)) := by
  have hg := worker_message_get sendOk errText subject body html targets 0
    ⟨0, 0, 0, some now, none⟩ k t ht
  refine ⟨hg, ?_, ?_⟩
  · intro hname
    rw [hg, hname]
    have hhtml : personalizeHtml html "" = html := by
      cases html <;> simp [personalizeHtml]
    rw [hhtml]
    simp [personalize]
  · intro hname
    refine ⟨by simp [personalize, hname], by simp [personalize, hname], ?_⟩
    intro hb hhb
    subst hhb
    simp [personalizeHtml, hname]

/-- C10 witness: a target with an empty name receives the templates
verbatim, the literal name token included. -/
theorem personalization_token_witness :
    (([⟨"x@y", ""⟩] : List Target))[0]? = some ⟨"x@y", ""⟩ ∧
    (send_bulk_emails_worker (fun _ => true) (fun _ => "")
        (fun _ => false) "Hi \x7bname\x7d" "B" none [⟨"x@y", ""⟩] 0
        ⟨0, 0, 0, some 0, none⟩).2.2[0]? =
      some ⟨"x@y", "Hi \x7bname\x7d", "B", none⟩ :=
  ⟨rfl,
   (personalization_token (fun _ => true) (fun _ => "") "Hi \x7bname\x7d"
     "B" none 0 [⟨"x@y", ""⟩] 0 ⟨"x@y", ""⟩ rfl).2.1 rfl⟩
